import Mathlib

/-!
Verification of an HR payroll backend (employee records, daily attendance,
monthly salary slips). The repository contains several service variants:

* `backend/index.js`  — email login, `calcSalaryForMonth` with integer
  rounding, attendance upsert storing the raw request date, cascading
  employee delete.  Embedded below in namespace `Backend`.
* `part_001`          — username login with role middleware,
  `calculateSalary` with 2-decimal rounding, attendance normalized to
  start of day, cascading delete.  Embedded in namespace `V1`.
* `part_002`/`part_003` — header / cookie login; attendance stored at end
  of day (the `setHours` calls mutate the parsed date before it is
  saved); employee delete without cascade.  Embedded in namespace `V2`.

JavaScript numbers are modelled as rationals, `Math.round` as
`jsRound`, and JS `Date` values as a calendar day plus milliseconds
since local midnight, ordered lexicographically exactly as timestamps
compare for valid local dates.
-/

/-- A local calendar day: year, 1-based month, 1-based day of month. -/
structure Day where
  y : Int
  m : Nat
  d : Nat
deriving DecidableEq

/-- A JS `Date`: a calendar day plus time of day in milliseconds
(0 … 86399999 for any real date). -/
structure DateTime where
  day : Day
  tod : Nat
deriving DecidableEq

/-- Strict lexicographic order on days, mirroring timestamp comparison. -/
def Day.ltb (a b : Day) : Bool :=
  decide (a.y < b.y) ||
    (decide (a.y = b.y) && (decide (a.m < b.m) || (decide (a.m = b.m) && decide (a.d < b.d))))

/-- Timestamp order on `DateTime` values (used by the Mongo `$gte`/`$lte`
range filters). -/
def DateTime.leb (a b : DateTime) : Bool :=
  Day.ltb a.day b.day || (decide (a.day = b.day) && decide (a.tod ≤ b.tod))

theorem Day.ltb_iff (a b : Day) :
    Day.ltb a b = true ↔
      (a.y < b.y ∨ (a.y = b.y ∧ (a.m < b.m ∨ (a.m = b.m ∧ a.d < b.d)))) := by
  simp [Day.ltb]

theorem Day.ltb_irrefl (a : Day) : Day.ltb a a = false := by
  simp [Day.ltb]

theorem Day.ltb_asymm (a b : Day) (h : Day.ltb a b = true) : Day.ltb b a = false := by
  rw [Bool.eq_false_iff]
  intro h2
  rw [Day.ltb_iff] at h
  rw [Day.ltb_iff] at h2
  obtain ⟨x1, x2, x3⟩ := a
  obtain ⟨y1, y2, y3⟩ := b
  simp at h h2
  omega

/-- `startOfDay` from the source: same day, midnight. -/
def startOfDay (d : DateTime) : DateTime := ⟨d.day, 0⟩

/-- `endOfDay` from the source: same day, 23:59:59.999. -/
def endOfDay (d : DateTime) : DateTime := ⟨d.day, 86399999⟩

/-- Gregorian leap-year rule (as implemented by JS `Date`). -/
def isLeap (y : Int) : Bool :=
  (decide (y % 4 = 0) && !(decide (y % 100 = 0))) || decide (y % 400 = 0)

/-- Number of days in month `m` (1-based) of year `y`, as produced by
JS `new Date(y, m, 0).getDate()`. -/
def daysInMonth (y : Int) (m : Nat) : Nat :=
  if m = 2 then (if isLeap y then 29 else 28)
  else if m = 4 ∨ m = 6 ∨ m = 9 ∨ m = 11 then 30
  else 31

/-- `startOfMonth(y, m)` = `new Date(y, m - 1, 1)`. -/
def startOfMonth (y : Int) (m : Nat) : DateTime := ⟨⟨y, m, 1⟩, 0⟩

/-- `endOfMonth(y, m)` = `new Date(y, m, 0, 23, 59, 59, 999)`. -/
def endOfMonth (y : Int) (m : Nat) : DateTime := ⟨⟨y, m, daysInMonth y m⟩, 86399999⟩

/-- JS `Math.round`: round half toward positive infinity. -/
def jsRound (q : ℚ) : ℤ := ⌊q + 1/2⌋

/-- `Math.round(q * 100) / 100`: rounding to two decimal places. -/
def round2 (q : ℚ) : ℚ := (jsRound (q * 100) : ℚ) / 100

/-- An Attendance document: employee reference, date, status string. -/
structure AttRec where
  employee : Nat
  date : DateTime
  status : String
deriving DecidableEq

/-- The Mongo filter used by the attendance upsert in every variant:
same employee, date within the calendar day of `d`. -/
def markFilter (eid : Nat) (d : DateTime) (a : AttRec) : Bool :=
  a.employee == eid &&
    (DateTime.leb (startOfDay d) a.date && DateTime.leb a.date (endOfDay d))

/-- For a record whose time of day is in the valid range, the day-range
filter is exactly agreement of (employee, calendar day). -/
theorem markFilter_eq (eid : Nat) (d : DateTime) (a : AttRec)
    (ha : a.date.tod ≤ 86399999) :
    markFilter eid d a = (a.employee == eid && decide (a.date.day = d.day)) := by
  unfold markFilter startOfDay endOfDay DateTime.leb
  cases hemp : a.employee == eid
  · simp
  · simp only [Bool.true_and]
    by_cases hd : a.date.day = d.day
    · simp [hd, Day.ltb_irrefl, ha]
    · have h1 : ¬ (d.day = a.date.day) := fun h => hd h.symm
      simp only [hd, h1, Bool.false_and, Bool.or_false, decide_eq_true_eq]
      cases hx : Day.ltb d.day a.date.day
      · simp [hd]
      · simp [Day.ltb_asymm _ _ hx, hd]

/-- A record written for day `d` with a valid time of day matches the
filter for day `d`. -/
theorem markFilter_self (eid : Nat) (d : DateTime) (s : String)
    (hd : d.tod ≤ 86399999) :
    markFilter eid d ⟨eid, d, s⟩ = true := by
  simp [markFilter, DateTime.leb, startOfDay, endOfDay, Day.ltb_irrefl, hd]

/-- Mongo `findOneAndUpdate` with `upsert: true` over a document list:
replace the first record matching `p` using `f`, or append `ins` when
no record matches. -/
def upsertFirst {α : Type} (p : α → Bool) (f : α → α) (ins : α) : List α → List α
  | [] => [ins]
  | a :: as => if p a then f a :: as else a :: upsertFirst p f ins as

theorem upsertFirst_length_of_any {α : Type} (p : α → Bool) (f : α → α) (ins : α)
    (l : List α) (h : l.any p = true) :
    (upsertFirst p f ins l).length = l.length := by
  induction l with
  | nil => simp at h
  | cons a as ih =>
    cases hp : p a
    · have has : as.any p = true := by
        rw [List.any_cons, hp, Bool.false_or] at h
        exact h
      simp [upsertFirst, hp, ih has]
    · simp [upsertFirst, hp]

theorem upsertFirst_of_not_any {α : Type} (p : α → Bool) (f : α → α) (ins : α)
    (l : List α) (h : l.any p = false) :
    upsertFirst p f ins l = l ++ [ins] := by
  induction l with
  | nil => simp [upsertFirst]
  | cons a as ih =>
    simp only [List.any_cons, Bool.or_eq_false_iff] at h
    simp [upsertFirst, h.1, ih h.2]

theorem countP_upsertFirst_of_any {α : Type} (p q : α → Bool) (f : α → α) (ins : α)
    (l : List α) (h : l.any p = true)
    (hq : ∀ a ∈ l, p a = true → q (f a) = q a) :
    (upsertFirst p f ins l).countP q = l.countP q := by
  induction l with
  | nil => simp at h
  | cons a as ih =>
    cases hp : p a
    · have has : as.any p = true := by
        rw [List.any_cons, hp, Bool.false_or] at h
        exact h
      have ihh := ih has (fun b hb hpb => hq b (by simp [hb]) hpb)
      simp [upsertFirst, hp, List.countP_cons, ihh]
    · have hqa := hq a (by simp) hp
      simp [upsertFirst, hp, List.countP_cons, hqa]

theorem mem_upsertFirst {α : Type} (p : α → Bool) (f : α → α) (ins : α)
    (l : List α) (x : α) (hx : x ∈ upsertFirst p f ins l) :
    x ∈ l ∨ x = ins ∨ ∃ b ∈ l, p b = true ∧ x = f b := by
  induction l with
  | nil =>
    simp [upsertFirst] at hx
    tauto
  | cons a as ih =>
    cases hp : p a
    · rw [upsertFirst] at hx
      simp only [hp] at hx
      simp only [Bool.false_eq_true, if_false, List.mem_cons] at hx
      rcases hx with h | h
      · exact Or.inl (by simp [h])
      · rcases ih h with h1 | h2 | ⟨b, hb, hpb, hfb⟩
        · exact Or.inl (by simp [h1])
        · exact Or.inr (Or.inl h2)
        · exact Or.inr (Or.inr ⟨b, by simp [hb], hpb, hfb⟩)
    · rw [upsertFirst] at hx
      simp only [hp, if_true] at hx
      simp only [List.mem_cons] at hx
      rcases hx with h | h
      · exact Or.inr (Or.inr ⟨a, by simp, hp, h⟩)
      · exact Or.inl (by simp [h])

theorem upsertFirst_const_idem {α : Type} (p : α → Bool) (r : α)
    (l : List α) (hr : p r = true) :
    upsertFirst p (fun _ => r) r (upsertFirst p (fun _ => r) r l) =
      upsertFirst p (fun _ => r) r l := by
  induction l with
  | nil => simp [upsertFirst, hr]
  | cons a as ih =>
    cases hp : p a
    · simp [upsertFirst, hp, ih]
    · simp [upsertFirst, hp, hr]

theorem countP_upsertFirst_const_one {α : Type} (p q : α → Bool) (r : α)
    (l : List α) (hqr : q r = true)
    (himp : ∀ a ∈ l, q a = true → p a = true) (hcount : l.countP p ≤ 1) :
    (upsertFirst p (fun _ => r) r l).countP q = 1 := by
  induction l with
  | nil => simp [upsertFirst, hqr]
  | cons a as ih =>
    cases hp : p a
    · have hqa : q a = false := by
        cases hq2 : q a
        · rfl
        · exact absurd (himp a (by simp) hq2) (by simp [hp])
      have hc : as.countP p ≤ 1 := by
        rw [List.countP_cons, hp] at hcount
        rw [if_neg (by simp)] at hcount
        omega
      simp [upsertFirst, hp, List.countP_cons, hqa,
        ih (fun b hb hqb => himp b (by simp [hb]) hqb) hc]
    · have h0 : as.countP p = 0 := by
        rw [List.countP_cons, hp, if_pos rfl] at hcount
        omega
      have hq0 : as.countP q = 0 := by
        rw [List.countP_eq_zero] at h0 ⊢
        intro b hb hqb
        exact h0 b hb (himp b (by simp [hb]) hqb)
      simp [upsertFirst, hp, List.countP_cons, hqr, hq0]

theorem mem_upsertFirst_const {α : Type} (p : α → Bool) (r : α) (l : List α) :
    r ∈ upsertFirst p (fun _ => r) r l := by
  induction l with
  | nil => simp [upsertFirst]
  | cons a as ih =>
    cases hp : p a
    · simp only [upsertFirst, hp]
      simp only [Bool.false_eq_true, if_false, List.mem_cons]
      exact Or.inr ih
    · simp [upsertFirst, hp]

namespace Backend

/-- Employee document of `backend/index.js` (email schema). -/
structure Employee where
  id : Nat
  name : String
  email : String
  password : String
  role : String
  monthlySalary : ℚ
  designation : String
deriving DecidableEq

/-- The document store of the email-schema variants. -/
structure State where
  employees : List Employee
  attendance : List AttRec
deriving DecidableEq

/-- The value object built by `calcSalaryForMonth`. -/
structure SalarySlip where
  employee : Employee
  year : Int
  month : Nat
  presentDays : Nat
  calculatedSalary : ℤ
deriving DecidableEq

/-- `calcSalaryForMonth(id, y, m)`: look up the employee, count
`present` attendance in the month range, return
`Math.round(monthlySalary * (presentCount / 30))`. -/
def calcSalaryForMonth (st : State) (id : Nat) (y : Int) (m : Nat) :
    Except String SalarySlip :=
  match st.employees.find? (fun e => e.id == id) with
  | none => Except.error ("Employee not found")
  | some emp =>
    let lo := startOfMonth y m
    let hi := endOfMonth y m
    let presentCount := st.attendance.countP (fun a =>
      a.employee == id && (DateTime.leb lo a.date && DateTime.leb a.date hi) &&
        a.status == "present")
    Except.ok
      { employee := emp
        year := y
        month := m
        presentDays := presentCount
        calculatedSalary := jsRound (emp.monthlySalary * ((presentCount : ℚ) / 30)) }

/-- Response of `POST /auth/login`. -/
inductive LoginResp where
  | ok (user : Employee)
  | err (status : Nat) (msg : String)
deriving DecidableEq

/-- `POST /auth/login`: single `findOne({ email, password })` lookup; the
full matched document is echoed back on success. -/
def login (st : State) (email password : String) : LoginResp :=
  match st.employees.find? (fun e => e.email == email && e.password == password) with
  | some u => LoginResp.ok u
  | none => LoginResp.err 401 "invalid email or password"

/-- The attendance-list update performed by `POST /attendance`:
`findOneAndUpdate` keyed on (employee, day of `d`), writing
`{ employee, status, date: d }` — the raw parsed date.  An omitted
status (`none`) is dropped from the update document by Mongoose, so an
update keeps the old status while an insert gets the schema default
`present`. -/
def markCore (eid : Nat) (d : DateTime) (s? : Option String)
    (l : List AttRec) : List AttRec :=
  upsertFirst (markFilter eid d)
    (fun old => ⟨eid, d, s?.getD old.status⟩)
    ⟨eid, d, s?.getD ("present")⟩ l

/-- `POST /attendance` (validation of required fields assumed passed). -/
def markAttendance (st : State) (eid : Nat) (d : DateTime) (s? : Option String) :
    State :=
  { st with attendance := markCore eid d s? st.attendance }

/-- `DELETE /employees/:id`: `Attendance.deleteMany({ employee: id })`
first, then `findByIdAndDelete`; 404 when the employee is missing. -/
def deleteEmployeeRoute (st : State) (id : Nat) : Nat × State :=
  let st1 : State :=
    { st with attendance := st.attendance.filter (fun a => !(a.employee == id)) }
  match st1.employees.find? (fun e => e.id == id) with
  | none => (404, st1)
  | some _ =>
    (200, { st1 with employees := st1.employees.filter (fun e => !(e.id == id)) })

/-- `GET /attendance?employeeId=...`: all attendance rows of one employee. -/
def attendanceByEmployee (st : State) (eid : Nat) : List AttRec :=
  st.attendance.filter (fun a => a.employee == eid)

end Backend

namespace V1

/-- Employee document of `part_001` (username schema). -/
structure Employee where
  id : Nat
  name : String
  username : String
  password : String
  role : String
  salary : ℚ
  empId : String
deriving DecidableEq

/-- The document store of the username-schema variant. -/
structure State where
  employees : List Employee
  attendance : List AttRec
deriving DecidableEq

/-- The payslip value object built by `calculateSalary`. -/
structure Payslip where
  employee : Employee
  year : Int
  month : Nat
  presentDays : Nat
  totalDaysInMonth : Nat
  baseSalary : ℚ
  perDaySalary : ℚ
  calculatedSalary : ℚ
deriving DecidableEq

/-- `calculateSalary(employeeId, year, month)` of `part_001`:
`perDaySalary = salary / 30`, `calculatedSalary = perDaySalary * presentDays`,
both rounded to 2 decimals in the returned object. -/
def calculateSalary (st : State) (id : Nat) (y : Int) (m : Nat) :
    Except String Payslip :=
  match st.employees.find? (fun e => e.id == id) with
  | none => Except.error ("Employee not found")
  | some emp =>
    let lo := startOfMonth y m
    let hi := endOfMonth y m
    let presentDays := st.attendance.countP (fun a =>
      a.employee == id && (DateTime.leb lo a.date && DateTime.leb a.date hi) &&
        a.status == "present")
    let perDaySalary := emp.salary / 30
    Except.ok
      { employee := emp
        year := y
        month := m
        presentDays := presentDays
        totalDaysInMonth := daysInMonth y m
        baseSalary := emp.salary
        perDaySalary := round2 perDaySalary
        calculatedSalary := round2 (perDaySalary * (presentDays : ℚ)) }

/-- Response of the `authenticate` middleware. -/
inductive AuthResp where
  | ok (user : Employee)
  | err (status : Nat) (msg : String)
deriving DecidableEq

/-- `authenticate` middleware: body credentials, single
`findOne({ username, password })` lookup. -/
def authenticate (st : State) (username password : String) : AuthResp :=
  if username == "" || password == "" then
    AuthResp.err 401 "Username and password required in request body"
  else
    match st.employees.find? (fun e => e.username == username && e.password == password) with
    | some u => AuthResp.ok u
    | none => AuthResp.err 401 "Invalid username or password"

/-- An admin route of `part_001`: `authenticate` then `adminOnly` then the
route handler.  `adminOnly` responds 403 before the handler runs when the
resolved user's role is not `admin`. -/
def adminRoute {γ : Type} (handler : γ → State → Nat × State) (st : State)
    (username password : String) (body : γ) : Nat × State :=
  match authenticate st username password with
  | AuthResp.err code _ => (code, st)
  | AuthResp.ok u =>
    if u.role == "admin" then handler body st else (403, st)

/-- An employee document as returned with `.select('-password')`: every
schema field except the password. -/
structure PublicEmployee where
  id : Nat
  name : String
  username : String
  role : String
  salary : ℚ
  empId : String
deriving DecidableEq

/-- The `-password` projection. -/
def publicPart (e : Employee) : PublicEmployee :=
  ⟨e.id, e.name, e.username, e.role, e.salary, e.empId⟩

/-- Response of `POST /admin/login`. -/
inductive AdminLoginResp where
  | ok (user : PublicEmployee)
  | err (status : Nat) (msg : String)
deriving DecidableEq

/-- `POST /admin/login`: `findOne({ username, password, role: 'admin' })`
with `.select('-password')` on the echoed document. -/
def adminLogin (st : State) (username password : String) : AdminLoginResp :=
  if username == "" || password == "" then
    AdminLoginResp.err 400 "Username and password required"
  else
    match st.employees.find? (fun e =>
        e.username == username && e.password == password && e.role == "admin") with
    | some u => AdminLoginResp.ok (publicPart u)
    | none => AdminLoginResp.err 401 "Invalid admin credentials"

/-- JS `status || 'present'`: default when the field is omitted or empty. -/
def orPresent (s? : Option String) : String :=
  match s? with
  | none => "present"
  | some s => if s == "" then ("present") else s

/-- JS `status && !['present','absent'].includes(status)`: the condition
under which `POST /admin/attendance/mark` responds 400. -/
def statusInvalid (s? : Option String) : Bool :=
  match s? with
  | none => false
  | some s => !(s == "") && !(s == "present" || s == "absent")

/-- The attendance upsert of `part_001`: keyed on the day of `d`, the
written document carries `date: startOfDay(d)` and `status || 'present'`. -/
def markCore (eid : Nat) (d : DateTime) (s? : Option String)
    (l : List AttRec) : List AttRec :=
  upsertFirst (markFilter eid d)
    (fun _ => ⟨eid, startOfDay d, orPresent s?⟩)
    ⟨eid, startOfDay d, orPresent s?⟩ l

/-- `POST /admin/attendance/mark` after the auth middlewares: status enum
check (400), then employee existence check (404), then the upsert. -/
def markRoute (st : State) (eid : Nat) (d : DateTime) (s? : Option String) :
    Nat × State :=
  if statusInvalid s? then (400, st)
  else
    match st.employees.find? (fun e => e.id == eid) with
    | none => (404, st)
    | some _ => (200, { st with attendance := markCore eid d s? st.attendance })

/-- `POST /admin/employees/delete`: `findByIdAndDelete` (404 when
missing), then `Attendance.deleteMany({ employee })`. -/
def deleteEmployeeRoute (st : State) (id : Nat) : Nat × State :=
  match st.employees.find? (fun e => e.id == id) with
  | none => (404, st)
  | some _ =>
    (200, ⟨st.employees.filter (fun e => !(e.id == id)),
           st.attendance.filter (fun a => !(a.employee == id))⟩)

end V1

namespace V2

/-- The attendance upsert of `part_002`/`part_003`: the two `setHours`
calls mutate the parsed date, so the saved document carries
`date = endOfDay(d)` while the filter still keys on the day of `d`. -/
def markCore (eid : Nat) (d : DateTime) (s? : Option String)
    (l : List AttRec) : List AttRec :=
  upsertFirst (markFilter eid d)
    (fun old => ⟨eid, endOfDay d, s?.getD old.status⟩)
    ⟨eid, endOfDay d, s?.getD ("present")⟩ l

/-- `DELETE /employees/:id` of `part_002`: `findByIdAndDelete` only — no
`Attendance.deleteMany` is issued. -/
def deleteEmployeeRoute (st : Backend.State) (id : Nat) : Nat × Backend.State :=
  match st.employees.find? (fun e => e.id == id) with
  | none => (404, st)
  | some _ =>
    (200, { st with employees := st.employees.filter (fun e => !(e.id == id)) })

/-- Request body of `POST /employees` in `part_002`. -/
structure CreateBody where
  name : String
  email : String
  password : String
  role : String
  designation : String
  monthlySalary : Option ℚ
deriving DecidableEq

/-- `POST /employees` of `part_002`: the `auth` middleware resolves the
caller from the `x-user-email` header (no role check at all), then the
employee is created with JS `||` defaults; the unique email index makes
a duplicate create fail. -/
def createEmployeeRoute (st : Backend.State) (headerEmail : String)
    (b : CreateBody) (newId : Nat) : Nat × Backend.State :=
  if headerEmail == "" then (401, st)
  else
    match st.employees.find? (fun e => e.email == headerEmail) with
    | none => (401, st)
    | some _ =>
      if b.name == "" || b.email == "" then (400, st)
      else if st.employees.any (fun e => e.email == b.email) then (500, st)
      else
        (200, { st with employees := st.employees ++
          [⟨newId, b.name, b.email,
            (if b.password == "" then ("emp123") else b.password),
            (if b.role == "" then ("employee") else b.role),
            (match b.monthlySalary with
             | none => 30000
             | some s => if s = 0 then 30000 else s),
            b.designation⟩] })

end V2

/-- The Attendance Store invariant: every stored date has a valid time
of day, and there is at most one record per (employee, calendar day). -/
def DayInv (l : List AttRec) : Prop :=
  (∀ a ∈ l, a.date.tod ≤ 86399999) ∧
    ∀ eid k, l.countP (fun a => a.employee == eid && decide (a.date.day = k)) ≤ 1

/-- Reachable attendance lists: starting from the empty store, the only
writes the repository performs are the three variants' mark upserts
(always called with a real JS date, hence a valid time of day) and
record removal (the cascading deletes). -/
inductive AttReach : List AttRec → Prop where
  | nil : AttReach []
  | markB (l : List AttRec) (eid : Nat) (d : DateTime) (s? : Option String) :
      AttReach l → d.tod ≤ 86399999 → AttReach (Backend.markCore eid d s? l)
  | markV1 (l : List AttRec) (eid : Nat) (d : DateTime) (s? : Option String) :
      AttReach l → d.tod ≤ 86399999 → AttReach (V1.markCore eid d s? l)
  | markV2 (l : List AttRec) (eid : Nat) (d : DateTime) (s? : Option String) :
      AttReach l → d.tod ≤ 86399999 → AttReach (V2.markCore eid d s? l)
  | prune (l : List AttRec) (p : AttRec → Bool) : AttReach l → AttReach (l.filter p)

/-- Any upsert keyed on the day filter that writes records on the day of
`d` with valid times preserves the store invariant. -/
theorem dayInv_upsert (l : List AttRec) (hInv : DayInv l) (eid : Nat) (d : DateTime)
    (f : AttRec → AttRec) (ins : AttRec)
    (hf : ∀ old, (f old).employee = eid ∧ (f old).date.day = d.day ∧
      (f old).date.tod ≤ 86399999)
    (hins : ins.employee = eid ∧ ins.date.day = d.day ∧ ins.date.tod ≤ 86399999) :
    DayInv (upsertFirst (markFilter eid d) f ins l) := by
  obtain ⟨hval, hcnt⟩ := hInv
  constructor
  · intro a ha
    rcases mem_upsertFirst _ _ _ _ _ ha with h | h | ⟨b, _, _, hfb⟩
    · exact hval a h
    · rw [h]
      exact hins.2.2
    · rw [hfb]
      exact (hf b).2.2
  · intro eid2 k
    cases hany : l.any (markFilter eid d)
    · rw [upsertFirst_of_not_any _ _ _ _ hany, List.countP_append]
      cases hq : ins.employee == eid2 && decide (ins.date.day = k)
      · have h1 : List.countP (fun a => a.employee == eid2 && decide (a.date.day = k))
            [ins] = 0 := by
          simp only [List.countP_cons, List.countP_nil, hq]
          simp
        rw [h1]
        simpa using hcnt eid2 k
      · rw [Bool.and_eq_true, beq_iff_eq, decide_eq_true_eq] at hq
        have heid : eid2 = eid := by rw [← hq.1, hins.1]
        have hk : k = d.day := by rw [← hq.2, hins.2.1]
        have hnone := List.any_eq_false.mp hany
        have h0 : l.countP (fun a => a.employee == eid2 && decide (a.date.day = k)) = 0 := by
          rw [List.countP_eq_zero]
          intro a ha hqa
          rw [Bool.and_eq_true, beq_iff_eq, decide_eq_true_eq] at hqa
          apply hnone a ha
          rw [markFilter_eq _ _ _ (hval a ha), Bool.and_eq_true, beq_iff_eq,
            decide_eq_true_eq]
          exact ⟨by rw [hqa.1, heid], by rw [hqa.2, hk]⟩
        have h2 : List.countP (fun a => a.employee == eid2 && decide (a.date.day = k))
            [ins] = 1 := by
          simp only [List.countP_cons, List.countP_nil]
          rw [if_pos]
          rw [Bool.and_eq_true, beq_iff_eq, decide_eq_true_eq]
          exact ⟨by rw [hins.1, heid], by rw [hins.2.1, hk]⟩
        rw [h0, h2]
    · rw [countP_upsertFirst_of_any _ _ _ _ _ hany ?_]
      · exact hcnt eid2 k
      · intro a ha hpa
        rw [markFilter_eq _ _ _ (hval a ha), Bool.and_eq_true, beq_iff_eq,
          decide_eq_true_eq] at hpa
        simp only [(hf a).1, (hf a).2.1, hpa.1, hpa.2]

/-- Every reachable attendance list satisfies the store invariant. -/
theorem attReach_dayInv (l : List AttRec) (h : AttReach l) : DayInv l := by
  induction h with
  | nil => exact ⟨by simp, fun eid k => by simp⟩
  | markB l2 eid d s? _ hd ih =>
    exact dayInv_upsert l2 ih eid d _ _ (fun old => ⟨rfl, rfl, hd⟩) ⟨rfl, rfl, hd⟩
  | markV1 l2 eid d s? _ hd ih =>
    exact dayInv_upsert l2 ih eid d _ _
      (fun old => ⟨rfl, rfl, Nat.zero_le _⟩) ⟨rfl, rfl, Nat.zero_le _⟩
  | markV2 l2 eid d s? _ hd ih =>
    exact dayInv_upsert l2 ih eid d _ _
      (fun old => ⟨rfl, rfl, Nat.le_refl _⟩) ⟨rfl, rfl, Nat.le_refl _⟩
  | prune l2 p _ ih =>
    obtain ⟨hval, hcnt⟩ := ih
    refine ⟨fun a ha => hval a (List.mem_of_mem_filter ha), fun eid k => ?_⟩
    exact le_trans ((List.filter_sublist l2).countP_le _) (hcnt eid k)

/-- C1: for every existing employee with monthly salary `S` and every
(year, month), the salary computation returns `calculatedSalary` equal to
`(S / 30) * presentDays` — the divisor fixed at 30 — rounded to the
nearest integer in the `backend/index.js` variant and to 2 decimal
places in the `part_001` variant; in particular `S = 30000` with
`presentDays = 20` yields `20000` under both roundings. -/
theorem c1_salary_formula (st : Backend.State) (stv : V1.State)
    (idB idV : Nat) (y yv : Int) (m mv : Nat)
    (empB : Backend.Employee) (empV : V1.Employee)
    (hB : st.employees.find? (fun e => e.id == idB) = some empB)
    (hV : stv.employees.find? (fun e => e.id == idV) = some empV) :
    (∃ slip, Backend.calcSalaryForMonth st idB y m = Except.ok slip ∧
      slip.calculatedSalary =
        jsRound (empB.monthlySalary / 30 * (slip.presentDays : ℚ))) ∧
    (∃ slip, V1.calculateSalary stv idV yv mv = Except.ok slip ∧
      slip.calculatedSalary =
        round2 (empV.salary / 30 * (slip.presentDays : ℚ))) ∧
    jsRound (30000 / 30 * 20 : ℚ) = 20000 ∧
    round2 (30000 / 30 * 20 : ℚ) = 20000 := by
  refine ⟨?_, ?_, ?_, ?_⟩
  · unfold Backend.calcSalaryForMonth
    rw [hB]
    refine ⟨_, rfl, ?_⟩
    ring_nf
  · unfold V1.calculateSalary
    rw [hV]
    refine ⟨_, rfl, ?_⟩
    unfold round2
    ring_nf
  · unfold jsRound
    norm_num
  · unfold round2 jsRound
    norm_num

/-- C1 witness: a concrete store with one employee on each variant. -/
theorem c1_salary_formula_witness :
    ((⟨[⟨1, "A", "a@b.c", "pw", "employee", 30000, "Dev"⟩], []⟩ :
        Backend.State).employees.find? (fun e => e.id == 1) =
      some ⟨1, "A", "a@b.c", "pw", "employee", 30000, "Dev"⟩) ∧
    ((⟨[⟨1, "A", "a", "pw", "employee", 30000, "E1"⟩], []⟩ :
        V1.State).employees.find? (fun e => e.id == 1) =
      some ⟨1, "A", "a", "pw", "employee", 30000, "E1"⟩) ∧
    ((∃ slip, Backend.calcSalaryForMonth
        ⟨[⟨1, "A", "a@b.c", "pw", "employee", 30000, "Dev"⟩], []⟩ 1 2025 3 =
          Except.ok slip ∧
      slip.calculatedSalary = jsRound ((30000 : ℚ) / 30 * (slip.presentDays : ℚ))) ∧
    (∃ slip, V1.calculateSalary
        ⟨[⟨1, "A", "a", "pw", "employee", 30000, "E1"⟩], []⟩ 1 2025 3 =
          Except.ok slip ∧
      slip.calculatedSalary = round2 ((30000 : ℚ) / 30 * (slip.presentDays : ℚ))) ∧
    jsRound (30000 / 30 * 20 : ℚ) = 20000 ∧
    round2 (30000 / 30 * 20 : ℚ) = 20000) :=
  ⟨rfl, rfl,
    c1_salary_formula
      ⟨[⟨1, "A", "a@b.c", "pw", "employee", 30000, "Dev"⟩], []⟩
      ⟨[⟨1, "A", "a", "pw", "employee", 30000, "E1"⟩], []⟩
      1 1 2025 2025 3 3
      ⟨1, "A", "a@b.c", "pw", "employee", 30000, "Dev"⟩
      ⟨1, "A", "a", "pw", "employee", 30000, "E1"⟩
      rfl rfl⟩

/-- C2: for every existing employee and every (year, month), the salary
computation's `presentDays` equals the count of stored Attendance records
for that employee with status `present` and date within the inclusive
range from the first to the last instant of the month, and that value is
unchanged under any permutation of the stored attendance records. -/
theorem c2_present_days_count (st : Backend.State) (stv : V1.State)
    (idB idV : Nat) (y yv : Int) (m mv : Nat)
    (empB : Backend.Employee) (empV : V1.Employee)
    (hB : st.employees.find? (fun e => e.id == idB) = some empB)
    (hV : stv.employees.find? (fun e => e.id == idV) = some empV) :
    (∃ slip, Backend.calcSalaryForMonth st idB y m = Except.ok slip ∧
      slip.presentDays = st.attendance.countP (fun a =>
        a.employee == idB &&
          (DateTime.leb (startOfMonth y m) a.date &&
            DateTime.leb a.date (endOfMonth y m)) &&
          a.status == "present") ∧
      ∀ att2, st.attendance.Perm att2 →
        ∃ slip2, Backend.calcSalaryForMonth ⟨st.employees, att2⟩ idB y m =
            Except.ok slip2 ∧
          slip2.presentDays = slip.presentDays) ∧
    (∃ slip, V1.calculateSalary stv idV yv mv = Except.ok slip ∧
      slip.presentDays = stv.attendance.countP (fun a =>
        a.employee == idV &&
          (DateTime.leb (startOfMonth yv mv) a.date &&
            DateTime.leb a.date (endOfMonth yv mv)) &&
          a.status == "present") ∧
      ∀ att2, stv.attendance.Perm att2 →
        ∃ slip2, V1.calculateSalary ⟨stv.employees, att2⟩ idV yv mv =
            Except.ok slip2 ∧
          slip2.presentDays = slip.presentDays) := by
  constructor
  · unfold Backend.calcSalaryForMonth
    rw [hB]
    refine ⟨_, rfl, rfl, ?_⟩
    intro att2 hperm
    show ∃ slip2,
      (match (⟨st.employees, att2⟩ : Backend.State).employees.find?
          (fun e => e.id == idB) with
        | none => Except.error ("Employee not found")
        | some emp => _) = Except.ok slip2 ∧ _
    rw [show (⟨st.employees, att2⟩ : Backend.State).employees = st.employees from rfl,
      hB]
    refine ⟨_, rfl, ?_⟩
    exact (hperm.countP_eq _).symm
  · unfold V1.calculateSalary
    rw [hV]
    refine ⟨_, rfl, rfl, ?_⟩
    intro att2 hperm
    show ∃ slip2,
      (match (⟨stv.employees, att2⟩ : V1.State).employees.find?
          (fun e => e.id == idV) with
        | none => Except.error ("Employee not found")
        | some emp => _) = Except.ok slip2 ∧ _
    rw [show (⟨stv.employees, att2⟩ : V1.State).employees = stv.employees from rfl,
      hV]
    refine ⟨_, rfl, ?_⟩
    exact (hperm.countP_eq _).symm

/-- C2 witness: concrete stores with one March-2025 attendance record. -/
theorem c2_present_days_count_witness :
    ((⟨[⟨1, "A", "a@b.c", "pw", "employee", 30000, "Dev"⟩],
        [⟨1, ⟨⟨2025, 3, 5⟩, 0⟩, "present"⟩]⟩ :
        Backend.State).employees.find? (fun e => e.id == 1) =
      some ⟨1, "A", "a@b.c", "pw", "employee", 30000, "Dev"⟩) ∧
    ((⟨[⟨1, "A", "a", "pw", "employee", 30000, "E1"⟩],
        [⟨1, ⟨⟨2025, 3, 5⟩, 0⟩, "present"⟩]⟩ :
        V1.State).employees.find? (fun e => e.id == 1) =
      some ⟨1, "A", "a", "pw", "employee", 30000, "E1"⟩) ∧
    ((∃ slip, Backend.calcSalaryForMonth
        ⟨[⟨1, "A", "a@b.c", "pw", "employee", 30000, "Dev"⟩],
          [⟨1, ⟨⟨2025, 3, 5⟩, 0⟩, "present"⟩]⟩ 1 2025 3 = Except.ok slip ∧
      slip.presentDays =
        List.countP (fun a : AttRec =>
          a.employee == 1 &&
            (DateTime.leb (startOfMonth 2025 3) a.date &&
              DateTime.leb a.date (endOfMonth 2025 3)) &&
            a.status == "present")
          [⟨1, ⟨⟨2025, 3, 5⟩, 0⟩, "present"⟩] ∧
      ∀ att2, List.Perm [(⟨1, ⟨⟨2025, 3, 5⟩, 0⟩, "present"⟩ : AttRec)] att2 →
        ∃ slip2, Backend.calcSalaryForMonth
            ⟨[⟨1, "A", "a@b.c", "pw", "employee", 30000, "Dev"⟩], att2⟩ 1 2025 3 =
              Except.ok slip2 ∧
          slip2.presentDays = slip.presentDays) ∧
    (∃ slip, V1.calculateSalary
        ⟨[⟨1, "A", "a", "pw", "employee", 30000, "E1"⟩],
          [⟨1, ⟨⟨2025, 3, 5⟩, 0⟩, "present"⟩]⟩ 1 2025 3 = Except.ok slip ∧
      slip.presentDays =
        List.countP (fun a : AttRec =>
          a.employee == 1 &&
            (DateTime.leb (startOfMonth 2025 3) a.date &&
              DateTime.leb a.date (endOfMonth 2025 3)) &&
            a.status == "present")
          [⟨1, ⟨⟨2025, 3, 5⟩, 0⟩, "present"⟩] ∧
      ∀ att2, List.Perm [(⟨1, ⟨⟨2025, 3, 5⟩, 0⟩, "present"⟩ : AttRec)] att2 →
        ∃ slip2, V1.calculateSalary
            ⟨[⟨1, "A", "a", "pw", "employee", 30000, "E1"⟩], att2⟩ 1 2025 3 =
              Except.ok slip2 ∧
          slip2.presentDays = slip.presentDays)) :=
  ⟨rfl, rfl,
    c2_present_days_count
      ⟨[⟨1, "A", "a@b.c", "pw", "employee", 30000, "Dev"⟩],
        [⟨1, ⟨⟨2025, 3, 5⟩, 0⟩, "present"⟩]⟩
      ⟨[⟨1, "A", "a", "pw", "employee", 30000, "E1"⟩],
        [⟨1, ⟨⟨2025, 3, 5⟩, 0⟩, "present"⟩]⟩
      1 1 2025 2025 3 3
      ⟨1, "A", "a@b.c", "pw", "employee", 30000, "Dev"⟩
      ⟨1, "A", "a", "pw", "employee", 30000, "E1"⟩
      rfl rfl⟩

/-- C3: every reachable attendance store holds at most one record per
(employee, calendar day); marking attendance for an (employee, date)
that already has a record on that day overwrites it in place — the list
length and the record count for that employee are both unchanged (shown
for the `backend/index.js` and `part_001` upserts). -/
theorem c3_attendance_day_unique (l : List AttRec) (h : AttReach l) :
    (∀ eid k, l.countP (fun a => a.employee == eid && decide (a.date.day = k)) ≤ 1) ∧
    (∀ (eid : Nat) (d : DateTime) (s? : Option String),
      l.any (markFilter eid d) = true →
      (Backend.markCore eid d s? l).length = l.length ∧
      (Backend.markCore eid d s? l).countP (fun a => a.employee == eid) =
        l.countP (fun a => a.employee == eid) ∧
      (V1.markCore eid d s? l).length = l.length ∧
      (V1.markCore eid d s? l).countP (fun a => a.employee == eid) =
        l.countP (fun a => a.employee == eid)) := by
  have hinv := attReach_dayInv l h
  refine ⟨hinv.2, ?_⟩
  intro eid d s? hany
  refine ⟨upsertFirst_length_of_any _ _ _ _ hany, ?_,
    upsertFirst_length_of_any _ _ _ _ hany, ?_⟩
  · apply countP_upsertFirst_of_any _ _ _ _ _ hany
    intro a ha hpa
    unfold markFilter at hpa
    rw [Bool.and_eq_true] at hpa
    simp [hpa.1]
  · apply countP_upsertFirst_of_any _ _ _ _ _ hany
    intro a ha hpa
    unfold markFilter at hpa
    rw [Bool.and_eq_true] at hpa
    simp [hpa.1]

/-- C3 witness: the store reached by one mark of employee 1 on
2025-03-05. -/
theorem c3_attendance_day_unique_witness :
    AttReach (Backend.markCore 1 ⟨⟨2025, 3, 5⟩, 0⟩ (some ("present")) []) ∧
    ((∀ eid k, (Backend.markCore 1 ⟨⟨2025, 3, 5⟩, 0⟩ (some ("present")) []).countP
        (fun a => a.employee == eid && decide (a.date.day = k)) ≤ 1) ∧
    (∀ (eid : Nat) (d : DateTime) (s? : Option String),
      (Backend.markCore 1 ⟨⟨2025, 3, 5⟩, 0⟩ (some ("present")) []).any
        (markFilter eid d) = true →
      (Backend.markCore eid d s?
          (Backend.markCore 1 ⟨⟨2025, 3, 5⟩, 0⟩ (some ("present")) [])).length =
        (Backend.markCore 1 ⟨⟨2025, 3, 5⟩, 0⟩ (some ("present")) []).length ∧
      (Backend.markCore eid d s?
          (Backend.markCore 1 ⟨⟨2025, 3, 5⟩, 0⟩ (some ("present")) [])).countP
          (fun a => a.employee == eid) =
        (Backend.markCore 1 ⟨⟨2025, 3, 5⟩, 0⟩ (some ("present")) []).countP
          (fun a => a.employee == eid) ∧
      (V1.markCore eid d s?
          (Backend.markCore 1 ⟨⟨2025, 3, 5⟩, 0⟩ (some ("present")) [])).length =
        (Backend.markCore 1 ⟨⟨2025, 3, 5⟩, 0⟩ (some ("present")) []).length ∧
      (V1.markCore eid d s?
          (Backend.markCore 1 ⟨⟨2025, 3, 5⟩, 0⟩ (some ("present")) [])).countP
          (fun a => a.employee == eid) =
        (Backend.markCore 1 ⟨⟨2025, 3, 5⟩, 0⟩ (some ("present")) []).countP
          (fun a => a.employee == eid))) :=
  ⟨AttReach.markB [] 1 ⟨⟨2025, 3, 5⟩, 0⟩ (some ("present")) AttReach.nil (by decide),
    c3_attendance_day_unique _
      (AttReach.markB [] 1 ⟨⟨2025, 3, 5⟩, 0⟩ (some ("present")) AttReach.nil (by decide))⟩

/-- C4: marking attendance twice with identical (employee, date, status)
arguments leaves the store exactly as after the first mark, and the
store then holds exactly one record for that employee and calendar day,
carrying that status (for any starting store satisfying the uniqueness
invariant and any real request date). -/
theorem c4_mark_idempotent (l : List AttRec) (hInv : DayInv l)
    (eid : Nat) (d : DateTime) (hd : d.tod ≤ 86399999) (s : String) :
    Backend.markCore eid d (some s) (Backend.markCore eid d (some s) l) =
      Backend.markCore eid d (some s) l ∧
    (Backend.markCore eid d (some s) l).countP
      (fun a => a.employee == eid && decide (a.date.day = d.day) && a.status == s)
      = 1 := by
  constructor
  · exact upsertFirst_const_idem (markFilter eid d) ⟨eid, d, s⟩ l
      (markFilter_self eid d s hd)
  · refine countP_upsertFirst_const_one (markFilter eid d) _ ⟨eid, d, s⟩ l
      (by simp) ?_ ?_
    · intro a ha hqa
      rw [Bool.and_eq_true] at hqa
      rw [markFilter_eq _ _ _ (hInv.1 a ha)]
      exact hqa.1
    · rw [List.countP_congr (fun a ha => ?_)]
      · exact hInv.2 eid d.day
      · rw [markFilter_eq _ _ _ (hInv.1 a ha)]

/-- C4 witness: marking employee 1 present on 2025-03-05 starting from
the empty store. -/
theorem c4_mark_idempotent_witness :
    DayInv [] ∧ (⟨⟨2025, 3, 5⟩, 0⟩ : DateTime).tod ≤ 86399999 ∧
    (Backend.markCore 1 ⟨⟨2025, 3, 5⟩, 0⟩ (some ("present"))
        (Backend.markCore 1 ⟨⟨2025, 3, 5⟩, 0⟩ (some ("present")) []) =
      Backend.markCore 1 ⟨⟨2025, 3, 5⟩, 0⟩ (some ("present")) [] ∧
    (Backend.markCore 1 ⟨⟨2025, 3, 5⟩, 0⟩ (some ("present")) []).countP
      (fun a => a.employee == 1 &&
        decide (a.date.day = (⟨⟨2025, 3, 5⟩, 0⟩ : DateTime).day) &&
        a.status == "present") = 1) :=
  ⟨⟨by simp, fun eid k => by simp⟩, by decide,
    c4_mark_idempotent [] ⟨by simp, fun eid k => by simp⟩ 1 ⟨⟨2025, 3, 5⟩, 0⟩
      (by decide) "present"⟩

/-- After removing all records of one employee, a query for that
employee returns the empty list. -/
theorem filter_employee_of_pruned (ls : List AttRec) (i : Nat) :
    (ls.filter (fun a => !(a.employee == i))).filter (fun a => a.employee == i)
      = [] := by
  rw [List.filter_eq_nil_iff]
  intro a ha
  have h := List.of_mem_filter ha
  simp at h
  simp [h]

/-- C5 (amended): in the `backend/index.js` variant, deleting an
employee always removes every attendance record referencing it, and in
the `part_001` variant a successful delete does the same — subsequent
attendance queries for that employee ID return the empty set.  The
`part_002` variant, however, deletes the employee without touching
attendance (see the counterexample). -/
theorem c5_cascading_delete_amended (st : Backend.State) (stv : V1.State)
    (id idv : Nat) :
    Backend.attendanceByEmployee (Backend.deleteEmployeeRoute st id).2 id = [] ∧
    ((V1.deleteEmployeeRoute stv idv).1 = 200 →
      (V1.deleteEmployeeRoute stv idv).2.attendance.filter
        (fun a => a.employee == idv) = []) := by
  constructor
  · have key : (Backend.deleteEmployeeRoute st id).2.attendance =
        st.attendance.filter (fun a => !(a.employee == id)) := by
      unfold Backend.deleteEmployeeRoute
      dsimp only
      cases st.employees.find? (fun e => e.id == id) <;> rfl
    unfold Backend.attendanceByEmployee
    rw [key]
    exact filter_employee_of_pruned _ _
  · intro h200
    unfold V1.deleteEmployeeRoute at h200 ⊢
    cases hf : stv.employees.find? (fun e => e.id == idv)
    · rw [hf] at h200
      simp at h200
    · exact filter_employee_of_pruned _ _

/-- C5 witness: concrete one-employee stores with one attendance record
each. -/
theorem c5_cascading_delete_amended_witness :
    (V1.deleteEmployeeRoute
        ⟨[⟨1, "A", "a", "pw", "employee", 30000, "E1"⟩],
          [⟨1, ⟨⟨2025, 3, 5⟩, 0⟩, "present"⟩]⟩ 1).1 = 200 ∧
    (Backend.attendanceByEmployee
      (Backend.deleteEmployeeRoute
        ⟨[⟨1, "A", "a@b.c", "pw", "employee", 30000, "Dev"⟩],
          [⟨1, ⟨⟨2025, 3, 5⟩, 0⟩, "present"⟩]⟩ 1).2 1 = [] ∧
    ((V1.deleteEmployeeRoute
        ⟨[⟨1, "A", "a", "pw", "employee", 30000, "E1"⟩],
          [⟨1, ⟨⟨2025, 3, 5⟩, 0⟩, "present"⟩]⟩ 1).1 = 200 →
      (V1.deleteEmployeeRoute
        ⟨[⟨1, "A", "a", "pw", "employee", 30000, "E1"⟩],
          [⟨1, ⟨⟨2025, 3, 5⟩, 0⟩, "present"⟩]⟩ 1).2.attendance.filter
        (fun a => a.employee == 1) = [])) :=
  ⟨rfl,
    c5_cascading_delete_amended
      ⟨[⟨1, "A", "a@b.c", "pw", "employee", 30000, "Dev"⟩],
        [⟨1, ⟨⟨2025, 3, 5⟩, 0⟩, "present"⟩]⟩
      ⟨[⟨1, "A", "a", "pw", "employee", 30000, "E1"⟩],
        [⟨1, ⟨⟨2025, 3, 5⟩, 0⟩, "present"⟩]⟩ 1 1⟩

/-- C5 counterexample: in the `part_002` variant, deleting employee 1
succeeds (status 200, the employee document is gone) yet the attendance
record referencing employee 1 is still returned by a subsequent
attendance query — the claimed cascade does not happen there. -/
theorem c5_counterexample :
    (V2.deleteEmployeeRoute
        ⟨[⟨1, "Sample Employee", "employee@pavakie.com", "emp123", "employee",
            30000, "Developer"⟩],
          [⟨1, ⟨⟨2025, 11, 2⟩, 0⟩, "present"⟩]⟩ 1).1 = 200 ∧
    (V2.deleteEmployeeRoute
        ⟨[⟨1, "Sample Employee", "employee@pavakie.com", "emp123", "employee",
            30000, "Developer"⟩],
          [⟨1, ⟨⟨2025, 11, 2⟩, 0⟩, "present"⟩]⟩ 1).2.employees = [] ∧
    (V2.deleteEmployeeRoute
        ⟨[⟨1, "Sample Employee", "employee@pavakie.com", "emp123", "employee",
            30000, "Developer"⟩],
          [⟨1, ⟨⟨2025, 11, 2⟩, 0⟩, "present"⟩]⟩ 1).2.attendance.filter
        (fun a => a.employee == 1) =
      [⟨1, ⟨⟨2025, 11, 2⟩, 0⟩, "present"⟩] := by
  refine ⟨rfl, rfl, rfl⟩

/-- C6: a login carrying a correct identifier with a wrong secret fails
with exactly the same response — status 401 and identical body — as a
login with an unknown identifier, in both the email variant
(`POST /auth/login`) and the username variant (`authenticate`): the two
failure causes are indistinguishable to the caller. -/
theorem c6_login_failure_indistinguishable (st : Backend.State) (stv : V1.State)
    (em pw em2 pw2 un upw un2 upw2 : String)
    (_hExists : ∃ e ∈ st.employees, e.email = em)
    (hWrongSecret : ∀ e ∈ st.employees, ¬(e.email = em ∧ e.password = pw))
    (hWrongId : ∀ e ∈ st.employees, e.email ≠ em2)
    (hun : un ≠ "") (hupw : upw ≠ "")
    (hun2 : un2 ≠ "") (hupw2 : upw2 ≠ "")
    (_hExistsV : ∃ e ∈ stv.employees, e.username = un)
    (hWrongSecretV : ∀ e ∈ stv.employees, ¬(e.username = un ∧ e.password = upw))
    (hWrongIdV : ∀ e ∈ stv.employees, e.username ≠ un2) :
    Backend.login st em pw = Backend.login st em2 pw2 ∧
    Backend.login st em pw = Backend.LoginResp.err 401 "invalid email or password" ∧
    V1.authenticate stv un upw = V1.authenticate stv un2 upw2 ∧
    V1.authenticate stv un upw =
      V1.AuthResp.err 401 "Invalid username or password" := by
  have hb1 : st.employees.find?
      (fun e => e.email == em && e.password == pw) = none := by
    rw [List.find?_eq_none]
    intro e he
    simp only [Bool.and_eq_true, beq_iff_eq]
    intro hc
    exact hWrongSecret e he hc
  have hb2 : st.employees.find?
      (fun e => e.email == em2 && e.password == pw2) = none := by
    rw [List.find?_eq_none]
    intro e he
    simp only [Bool.and_eq_true, beq_iff_eq]
    intro hc
    exact hWrongId e he hc.1
  have hv1 : stv.employees.find?
      (fun e => e.username == un && e.password == upw) = none := by
    rw [List.find?_eq_none]
    intro e he
    simp only [Bool.and_eq_true, beq_iff_eq]
    intro hc
    exact hWrongSecretV e he hc
  have hv2 : stv.employees.find?
      (fun e => e.username == un2 && e.password == upw2) = none := by
    rw [List.find?_eq_none]
    intro e he
    simp only [Bool.and_eq_true, beq_iff_eq]
    intro hc
    exact hWrongIdV e he hc.1
  have hcond1 : (un == "" || upw == "") = false := by
    simp [hun, hupw]
  have hcond2 : (un2 == "" || upw2 == "") = false := by
    simp [hun2, hupw2]
  unfold Backend.login V1.authenticate
  rw [hb1, hb2, hcond1, hcond2, hv1, hv2]
  exact ⟨rfl, rfl, rfl, rfl⟩

/-- C6 witness: a store holding one employee `a@b.c` / password `pw`
(username `alice` / `pw` in the username variant); the wrong-secret
login uses the right identifier with password `xx`, the wrong-identifier
login uses `z@z` (resp. `zoe`). -/
theorem c6_login_failure_indistinguishable_witness :
    (∃ e ∈ (⟨[⟨1, "A", "a@b.c", "pw", "employee", 30000, "Dev"⟩], []⟩ :
        Backend.State).employees, e.email = "a@b.c") ∧
    (∀ e ∈ (⟨[⟨1, "A", "a@b.c", "pw", "employee", 30000, "Dev"⟩], []⟩ :
        Backend.State).employees, ¬(e.email = "a@b.c" ∧ e.password = "xx")) ∧
    (∀ e ∈ (⟨[⟨1, "A", "a@b.c", "pw", "employee", 30000, "Dev"⟩], []⟩ :
        Backend.State).employees, e.email ≠ "z@z") ∧
    (Backend.login ⟨[⟨1, "A", "a@b.c", "pw", "employee", 30000, "Dev"⟩], []⟩
        "a@b.c" "xx" =
      Backend.login ⟨[⟨1, "A", "a@b.c", "pw", "employee", 30000, "Dev"⟩], []⟩
        "z@z" "yy" ∧
    Backend.login ⟨[⟨1, "A", "a@b.c", "pw", "employee", 30000, "Dev"⟩], []⟩
        "a@b.c" "xx" =
      Backend.LoginResp.err 401 "invalid email or password" ∧
    V1.authenticate ⟨[⟨1, "A", "alice", "pw", "employee", 30000, "E1"⟩], []⟩
        "alice" "xx" =
      V1.authenticate ⟨[⟨1, "A", "alice", "pw", "employee", 30000, "E1"⟩], []⟩
        "zoe" "yy" ∧
    V1.authenticate ⟨[⟨1, "A", "alice", "pw", "employee", 30000, "E1"⟩], []⟩
        "alice" "xx" =
      V1.AuthResp.err 401 "Invalid username or password") :=
  ⟨⟨⟨1, "A", "a@b.c", "pw", "employee", 30000, "Dev"⟩, by simp, rfl⟩,
    by decide, by decide,
    c6_login_failure_indistinguishable
      ⟨[⟨1, "A", "a@b.c", "pw", "employee", 30000, "Dev"⟩], []⟩
      ⟨[⟨1, "A", "alice", "pw", "employee", 30000, "E1"⟩], []⟩
      "a@b.c" "xx" "z@z" "yy" "alice" "xx" "zoe" "yy"
      ⟨⟨1, "A", "a@b.c", "pw", "employee", 30000, "Dev"⟩, by simp, rfl⟩
      (by decide) (by decide) (by decide) (by decide) (by decide) (by decide)
      ⟨⟨1, "A", "alice", "pw", "employee", 30000, "E1"⟩, by simp, rfl⟩
      (by decide) (by decide)⟩

/-- C7 (amended): in the `part_001` variant — the only variant with role
enforcement — an authenticated caller whose role is not `admin` invoking
any admin-only route (employee create/update/delete, attendance marking,
payslip generation: all are `authenticate, adminOnly, handler`
pipelines) receives status 403 and the store is unchanged, for every
handler and every request body.  The email variants enforce no roles at
all (see the counterexample). -/
theorem c7_admin_only_amended {γ : Type} (handler : γ → V1.State → Nat × V1.State)
    (st : V1.State) (un pw : String) (body : γ) (u : V1.Employee)
    (hAuth : V1.authenticate st un pw = V1.AuthResp.ok u)
    (hRole : u.role ≠ "admin") :
    V1.adminRoute handler st un pw body = (403, st) := by
  unfold V1.adminRoute
  rw [hAuth]
  simp [hRole]

/-- C7 witness: the seeded non-admin employee `bob` calling an
employee-creating handler. -/
theorem c7_admin_only_amended_witness :
    V1.authenticate ⟨[⟨2, "Bob", "bob", "pw", "employee", 30000, "E2"⟩], []⟩
        "bob" "pw" =
      V1.AuthResp.ok ⟨2, "Bob", "bob", "pw", "employee", 30000, "E2"⟩ ∧
    (⟨2, "Bob", "bob", "pw", "employee", 30000, "E2"⟩ : V1.Employee).role ≠
      "admin" ∧
    V1.adminRoute
        (fun (n : Nat) st2 =>
          (200, ⟨⟨n, "X", "x", "x", "employee", 30000, "EX"⟩ :: st2.employees,
            st2.attendance⟩))
        ⟨[⟨2, "Bob", "bob", "pw", "employee", 30000, "E2"⟩], []⟩
        "bob" "pw" 9 =
      (403, ⟨[⟨2, "Bob", "bob", "pw", "employee", 30000, "E2"⟩], []⟩) :=
  ⟨rfl, by decide,
    c7_admin_only_amended
      (fun (n : Nat) st2 =>
        (200, ⟨⟨n, "X", "x", "x", "employee", 30000, "EX"⟩ :: st2.employees,
          st2.attendance⟩))
      ⟨[⟨2, "Bob", "bob", "pw", "employee", 30000, "E2"⟩], []⟩
      "bob" "pw" 9 ⟨2, "Bob", "bob", "pw", "employee", 30000, "E2"⟩
      rfl (by decide)⟩

/-- C7 counterexample: in the `part_002` variant, the authenticated
caller `employee@pavakie.com` has role `employee`, yet `POST /employees`
succeeds with status 200 and adds a new employee document — an
admin-only operation performed by a non-admin, with stored state
modified, contradicting the claimed universal `Forbidden`. -/
theorem c7_counterexample :
    ((⟨[⟨1, "Admin", "admin@pavakie.com", "admin123", "admin", 50000,
          "HR Manager"⟩,
        ⟨2, "Sample Employee", "employee@pavakie.com", "emp123", "employee",
          30000, "Developer"⟩], []⟩ :
        Backend.State).employees.find?
          (fun e => e.email == "employee@pavakie.com")).map
        (fun e => e.role) = some ("employee") ∧
    (V2.createEmployeeRoute
        ⟨[⟨1, "Admin", "admin@pavakie.com", "admin123", "admin", 50000,
            "HR Manager"⟩,
          ⟨2, "Sample Employee", "employee@pavakie.com", "emp123", "employee",
            30000, "Developer"⟩], []⟩
        "employee@pavakie.com"
        ⟨"New Hire", "new@pavakie.com", "pw1", "", "", none⟩ 3).1 = 200 ∧
    (V2.createEmployeeRoute
        ⟨[⟨1, "Admin", "admin@pavakie.com", "admin123", "admin", 50000,
            "HR Manager"⟩,
          ⟨2, "Sample Employee", "employee@pavakie.com", "emp123", "employee",
            30000, "Developer"⟩], []⟩
        "employee@pavakie.com"
        ⟨"New Hire", "new@pavakie.com", "pw1", "", "", none⟩ 3).2.employees.length
      = 3 := by
  refine ⟨rfl, rfl, rfl⟩

/-- C8 (amended): in the `part_001` variant, `POST /admin/attendance/mark`
rejects — before any write, with the store unchanged — a supplied
non-empty status outside the {present, absent} enum (400) and a
non-existent employee (404); an omitted status defaults to `present` in
the stored record.  The email variants perform neither check and upsert
unconditionally (see the counterexample). -/
theorem c8_mark_validation_amended (st : V1.State) (eid : Nat) (d : DateTime) :
    (∀ s : String, s ≠ "" → s ≠ "present" → s ≠ "absent" →
      V1.markRoute st eid d (some s) = (400, st)) ∧
    (∀ s? : Option String, V1.statusInvalid s? = false →
      st.employees.find? (fun e => e.id == eid) = none →
      V1.markRoute st eid d s? = (404, st)) ∧
    (∀ emp, st.employees.find? (fun e => e.id == eid) = some emp →
      (⟨eid, startOfDay d, "present"⟩ : AttRec) ∈
        (V1.markRoute st eid d none).2.attendance) := by
  refine ⟨?_, ?_, ?_⟩
  · intro s hne hpres habs
    unfold V1.markRoute
    rw [if_pos]
    unfold V1.statusInvalid
    simp [hne, hpres, habs]
  · intro s? hinv hfind
    unfold V1.markRoute
    rw [if_neg (by simp [hinv]), hfind]
  · intro emp hfind
    unfold V1.markRoute
    rw [if_neg (by simp [V1.statusInvalid]), hfind]
    show _ ∈ V1.markCore eid d none st.attendance
    unfold V1.markCore
    exact mem_upsertFirst_const _ _ _

/-- C8 witness: a one-employee store; status `vacation` is rejected, a
mark for the missing employee 9 is rejected, and an omitted status for
employee 1 stores `present`. -/
theorem c8_mark_validation_amended_witness :
    ("vacation" : String) ≠ "" ∧ ("vacation" : String) ≠ "present" ∧
    ("vacation" : String) ≠ "absent" ∧
    V1.statusInvalid none = false ∧
    ((⟨[⟨1, "A", "a", "pw", "employee", 30000, "E1"⟩], []⟩ :
        V1.State).employees.find? (fun e => e.id == 9) = none) ∧
    ((⟨[⟨1, "A", "a", "pw", "employee", 30000, "E1"⟩], []⟩ :
        V1.State).employees.find? (fun e => e.id == 1) =
      some ⟨1, "A", "a", "pw", "employee", 30000, "E1"⟩) ∧
    V1.markRoute ⟨[⟨1, "A", "a", "pw", "employee", 30000, "E1"⟩], []⟩ 1
        ⟨⟨2025, 3, 5⟩, 0⟩ (some ("vacation")) =
      (400, ⟨[⟨1, "A", "a", "pw", "employee", 30000, "E1"⟩], []⟩) ∧
    V1.markRoute ⟨[⟨1, "A", "a", "pw", "employee", 30000, "E1"⟩], []⟩ 9
        ⟨⟨2025, 3, 5⟩, 0⟩ none =
      (404, ⟨[⟨1, "A", "a", "pw", "employee", 30000, "E1"⟩], []⟩) ∧
    (⟨1, startOfDay ⟨⟨2025, 3, 5⟩, 0⟩, "present"⟩ : AttRec) ∈
      (V1.markRoute ⟨[⟨1, "A", "a", "pw", "employee", 30000, "E1"⟩], []⟩ 1
        ⟨⟨2025, 3, 5⟩, 0⟩ none).2.attendance :=
  ⟨by decide, by decide, by decide, rfl, rfl, rfl,
    (c8_mark_validation_amended
        ⟨[⟨1, "A", "a", "pw", "employee", 30000, "E1"⟩], []⟩ 1
        ⟨⟨2025, 3, 5⟩, 0⟩).1 "vacation" (by decide) (by decide) (by decide),
    (c8_mark_validation_amended
        ⟨[⟨1, "A", "a", "pw", "employee", 30000, "E1"⟩], []⟩ 9
        ⟨⟨2025, 3, 5⟩, 0⟩).2.1 none rfl rfl,
    (c8_mark_validation_amended
        ⟨[⟨1, "A", "a", "pw", "employee", 30000, "E1"⟩], []⟩ 1
        ⟨⟨2025, 3, 5⟩, 0⟩).2.2 ⟨1, "A", "a", "pw", "employee", 30000, "E1"⟩ rfl⟩

/-- C8 counterexample: in `backend/index.js`, `POST /attendance` neither
checks that the employee exists nor validates the status enum: with an
empty employee store and the out-of-enum status `vacation`, the request
is not rejected — a record is written for the non-existent employee 42. -/
theorem c8_counterexample :
    (Backend.markAttendance ⟨[], []⟩ 42 ⟨⟨2025, 3, 5⟩, 0⟩
        (some ("vacation"))).attendance =
      [⟨42, ⟨⟨2025, 3, 5⟩, 0⟩, "vacation"⟩] ∧
    Backend.markAttendance ⟨[], []⟩ 42 ⟨⟨2025, 3, 5⟩, 0⟩ (some ("vacation")) ≠
      ⟨[], []⟩ := by
  refine ⟨rfl, by decide⟩

/-- C9 (amended): the `part_001` upsert persists every written
attendance date at day granularity — any record in the store after a
mark is either an untouched pre-existing record or carries time of day
0 (start of day).  The `part_002`/`part_003` upsert likewise stores a
constant time of day (86399999, the end of the day, because `setHours`
mutates the parsed date before saving).  The `backend/index.js` upsert,
however, stores the raw request date with its time of day (see the
counterexample). -/
theorem c9_date_normalized_amended (l : List AttRec) (eid : Nat) (d : DateTime)
    (s? : Option String) :
    (∀ a ∈ V1.markCore eid d s? l, a ∈ l ∨ a.date.tod = 0) ∧
    (∀ a ∈ V2.markCore eid d s? l, a ∈ l ∨ a.date.tod = 86399999) := by
  constructor
  · intro a ha
    rcases mem_upsertFirst _ _ _ _ _ ha with h | h | ⟨b, _, _, hfb⟩
    · exact Or.inl h
    · exact Or.inr (by rw [h]; rfl)
    · exact Or.inr (by rw [hfb]; rfl)
  · intro a ha
    rcases mem_upsertFirst _ _ _ _ _ ha with h | h | ⟨b, _, _, hfb⟩
    · exact Or.inl h
    · exact Or.inr (by rw [h]; rfl)
    · exact Or.inr (by rw [hfb]; rfl)

/-- C9 witness: marking employee 1 at 01:00 on 2025-03-05 in an empty
store. -/
theorem c9_date_normalized_amended_witness :
    ((⟨1, startOfDay ⟨⟨2025, 3, 5⟩, 3600000⟩, "present"⟩ : AttRec) ∈
      V1.markCore 1 ⟨⟨2025, 3, 5⟩, 3600000⟩ (some ("present")) []) ∧
    (∀ a ∈ V1.markCore 1 ⟨⟨2025, 3, 5⟩, 3600000⟩ (some ("present")) [],
      a ∈ ([] : List AttRec) ∨ a.date.tod = 0) ∧
    (∀ a ∈ V2.markCore 1 ⟨⟨2025, 3, 5⟩, 3600000⟩ (some ("present")) [],
      a ∈ ([] : List AttRec) ∨ a.date.tod = 86399999) :=
  ⟨by decide,
    (c9_date_normalized_amended [] 1 ⟨⟨2025, 3, 5⟩, 3600000⟩ (some ("present"))).1,
    (c9_date_normalized_amended [] 1 ⟨⟨2025, 3, 5⟩, 3600000⟩ (some ("present"))).2⟩

/-- C9 counterexample: in `backend/index.js`, marking attendance at
01:00 (time of day 3600000 ms) stores that exact timestamp — the
persisted date keeps the request's time-of-day information, and two
requests for the same calendar day that differ only in time of day
leave different stores. -/
theorem c9_counterexample :
    (Backend.markAttendance ⟨[], []⟩ 7 ⟨⟨2025, 3, 5⟩, 3600000⟩
        (some ("present"))).attendance =
      [⟨7, ⟨⟨2025, 3, 5⟩, 3600000⟩, "present"⟩] ∧
    Backend.markAttendance ⟨[], []⟩ 7 ⟨⟨2025, 3, 5⟩, 3600000⟩ (some ("present")) ≠
      Backend.markAttendance ⟨[], []⟩ 7 ⟨⟨2025, 3, 5⟩, 0⟩ (some ("present")) := by
  refine ⟨rfl, by decide⟩

/-- C10: on a successful login, the email variants echo the full stored
Employee document — the response carries the stored plaintext password
(equal to the submitted one, since the lookup matches on it) — while the
username variant's `POST /admin/login` responds with the `-password`
projection, a document type that has no password field and is invariant
under any change of the stored password. -/
theorem c10_login_password_exposure (st : Backend.State) (stv : V1.State)
    (em pw un upw : String) (u : Backend.Employee) (pe : V1.PublicEmployee)
    (hB : Backend.login st em pw = Backend.LoginResp.ok u)
    (hV : V1.adminLogin stv un upw = V1.AdminLoginResp.ok pe) :
    (u ∈ st.employees ∧ u.password = pw) ∧
    (∃ e ∈ stv.employees, pe = V1.publicPart e ∧ e.role = "admin") ∧
    (∀ (e : V1.Employee) (pw2 : String),
      V1.publicPart { e with password := pw2 } = V1.publicPart e) := by
  refine ⟨?_, ?_, fun e pw2 => rfl⟩
  · unfold Backend.login at hB
    cases hf : st.employees.find? (fun e => e.email == em && e.password == pw) with
    | none =>
      rw [hf] at hB
      exact absurd hB (by simp)
    | some u2 =>
      rw [hf] at hB
      have hu : u2 = u := by
        simpa using hB
      have hmem := List.mem_of_find?_eq_some hf
      have hpred := List.find?_some hf
      rw [Bool.and_eq_true, beq_iff_eq, beq_iff_eq] at hpred
      rw [← hu]
      exact ⟨hmem, hpred.2⟩
  · unfold V1.adminLogin at hV
    by_cases hcond : (un == "" || upw == "") = true
    · rw [if_pos hcond] at hV
      exact absurd hV (by simp)
    · rw [if_neg hcond] at hV
      cases hf : stv.employees.find?
          (fun e => e.username == un && e.password == upw && e.role == "admin") with
      | none =>
        rw [hf] at hV
        exact absurd hV (by simp)
      | some e =>
        rw [hf] at hV
        have hpe : pe = V1.publicPart e := by
          have : V1.AdminLoginResp.ok (V1.publicPart e) = V1.AdminLoginResp.ok pe :=
            hV
          cases this
          rfl
        have hmem := List.mem_of_find?_eq_some hf
        have hpred := List.find?_some hf
        rw [Bool.and_eq_true, Bool.and_eq_true, beq_iff_eq] at hpred
        exact ⟨e, hmem, hpe, by
          have := hpred.2
          rwa [beq_iff_eq] at this⟩

/-- C10 witness: the seeded admin logging in with correct credentials on
both variants. -/
theorem c10_login_password_exposure_witness :
    (Backend.login ⟨[⟨1, "Admin", "admin@pavakie.com", "admin123", "admin",
          50000, "HR Manager"⟩], []⟩ "admin@pavakie.com" "admin123" =
      Backend.LoginResp.ok
        ⟨1, "Admin", "admin@pavakie.com", "admin123", "admin", 50000,
          "HR Manager"⟩) ∧
    (V1.adminLogin ⟨[⟨1, "System Admin", "admin", "admin123", "admin", 50000,
          "ADMIN001"⟩], []⟩ "admin" "admin123" =
      V1.AdminLoginResp.ok
        ⟨1, "System Admin", "admin", "admin", 50000, "ADMIN001"⟩) ∧
    ((⟨1, "Admin", "admin@pavakie.com", "admin123", "admin", 50000,
        "HR Manager"⟩ : Backend.Employee) ∈
      (⟨[⟨1, "Admin", "admin@pavakie.com", "admin123", "admin", 50000,
          "HR Manager"⟩], []⟩ : Backend.State).employees ∧
      (⟨1, "Admin", "admin@pavakie.com", "admin123", "admin", 50000,
        "HR Manager"⟩ : Backend.Employee).password = "admin123") ∧
    (∃ e ∈ (⟨[⟨1, "System Admin", "admin", "admin123", "admin", 50000,
          "ADMIN001"⟩], []⟩ : V1.State).employees,
      (⟨1, "System Admin", "admin", "admin", 50000, "ADMIN001"⟩ :
        V1.PublicEmployee) = V1.publicPart e ∧ e.role = "admin") ∧
    (∀ (e : V1.Employee) (pw2 : String),
      V1.publicPart { e with password := pw2 } = V1.publicPart e) :=
  ⟨rfl, rfl,
    c10_login_password_exposure
      ⟨[⟨1, "Admin", "admin@pavakie.com", "admin123", "admin", 50000,
          "HR Manager"⟩], []⟩
      ⟨[⟨1, "System Admin", "admin", "admin123", "admin", 50000, "ADMIN001"⟩],
        []⟩
      "admin@pavakie.com" "admin123" "admin" "admin123"
      ⟨1, "Admin", "admin@pavakie.com", "admin123", "admin", 50000,
        "HR Manager"⟩
      ⟨1, "System Admin", "admin", "admin", 50000, "ADMIN001"⟩
      rfl rfl⟩
